import Mathlib

/-!
Verification of the balkan-security-map repository's specification against
its source.  Python strings are modelled as `List Char`; Python values that
can flow into string-formatting helpers are modelled by the inductive
`PyVal`; fallible code is modelled with `Option`/`Except`.  The ingestion
pipeline (resilient fetcher, source adapters, deduplicator, manifest
writer) is not present under `src/`; those components are modelled from
the specification text, and each such definition is marked
`Modelled from the spec:` in its doc comment.
-/

set_option maxRecDepth 4000

/-! ## Python value model (scripts/publish_post_light.py) -/

/-- Model of the Python values that may be passed to `esc` /
`str()`-conversion: `None`, strings, ints and booleans.  `str()` never
raises on these, mirroring CPython. -/
inductive PyVal where
  | none
  | str (s : List Char)
  | int (n : Int)
  | bool (b : Bool)
deriving DecidableEq

/-- Python `str(v)` for the modelled values. -/
def pyStr : PyVal → List Char
  | PyVal.none => "None".toList
  | PyVal.str s => s
  | PyVal.int n => (toString n).toList
  | PyVal.bool b => if b then "True".toList else "False".toList

/-- Python `txt.replace(c, r)` for a single-character pattern `c`:
every occurrence of `c` in the subject is replaced by `r`. -/
def replaceChar (c : Char) (r : List Char) : List Char → List Char
  | [] => []
  | a :: s => if a = c then r ++ replaceChar c r s else a :: replaceChar c r s

/-- `txt = "" if s is None else str(s)` — the first line of `esc` in
scripts/publish_post_light.py. -/
def escInput : PyVal → List Char
  | PyVal.none => []
  | v => pyStr v

/-- `esc` from scripts/publish_post_light.py: minimal HTML escaping by
five chained `str.replace` calls, ampersand first. -/
def esc (v : PyVal) : List Char :=
  replaceChar '\'' "&#39;".toList
    (replaceChar '"' "&quot;".toList
      (replaceChar '>' "&gt;".toList
        (replaceChar '<' "&lt;".toList
          (replaceChar '&' "&amp;".toList (escInput v)))))

/-! ## Datetime model (scripts/build_weekly_post.py, `iso_to_local_hu`) -/

/-- Gregorian leap-year test, as in Python's `calendar`/`datetime`. -/
def isLeap (y : Nat) : Bool :=
  (y % 4 = 0 && y % 100 ≠ 0) || y % 400 = 0

/-- Days in a Gregorian month. -/
def daysInMonth (y m : Nat) : Nat :=
  if m = 2 then (if isLeap y then 29 else 28)
  else if m = 4 || m = 6 || m = 9 || m = 11 then 30
  else 31

/-- Model of a Python `datetime`: calendar fields plus an optional
fixed-offset timezone in minutes east of UTC (`tzinfo`). -/
structure PyDateTime where
  year : Nat
  month : Nat
  day : Nat
  hour : Nat
  minute : Nat
  second : Nat
  offMin : Option Int
deriving DecidableEq, Repr

/-- Month/day validity for a calendar date, as `datetime` enforces. -/
def validDate (y m d : Nat) : Bool :=
  1 ≤ m && m ≤ 12 && 1 ≤ d && d ≤ daysInMonth y m

/-- Offset strictly between -24h and +24h, as Python's `timezone`
requires. -/
def offOK : Option Int → Bool
  | Option.none => true
  | some o => -1439 ≤ o && o ≤ 1439

/-- Field validity of a modelled datetime (`datetime` raises `ValueError`
outside these ranges; `MINYEAR = 1`, `MAXYEAR = 9999`). -/
def validDT (t : PyDateTime) : Bool :=
  1 ≤ t.year && t.year ≤ 9999 && validDate t.year t.month t.day &&
  t.hour ≤ 23 && t.minute ≤ 59 && t.second ≤ 59 && offOK t.offMin

/-- Smart constructor: the validation performed by the `datetime`
constructor, `none` modelling a raised `ValueError`. -/
def mkDT (y m d h mi s : Nat) (off : Option Int) : Option PyDateTime :=
  if validDT ⟨y, m, d, h, mi, s, off⟩ then some ⟨y, m, d, h, mi, s, off⟩
  else Option.none

/-- ASCII decimal digit test. -/
def isDigitCh (c : Char) : Bool := '0' ≤ c && c ≤ '9'

/-- Numeric value of an ASCII digit. -/
def digVal (c : Char) : Nat := c.toNat - '0'.toNat

/-- Read exactly two ASCII digits. -/
def read2 : List Char → Option (Nat × List Char)
  | a :: b :: rest =>
    if isDigitCh a && isDigitCh b then some (digVal a * 10 + digVal b, rest)
    else Option.none
  | _ => Option.none

/-- Read exactly four ASCII digits. -/
def read4 : List Char → Option (Nat × List Char)
  | a :: b :: c :: d :: rest =>
    if isDigitCh a && isDigitCh b && isDigitCh c && isDigitCh d then
      some (((digVal a * 10 + digVal b) * 10 + digVal c) * 10 + digVal d, rest)
    else Option.none
  | _ => Option.none

/-- Consume one expected character. -/
def expectCh (c : Char) : List Char → Option (List Char)
  | a :: rest => if a = c then some rest else Option.none
  | [] => Option.none

/-- Count and drop a leading run of ASCII digits. -/
def dropDigits : List Char → Nat × List Char
  | [] => (0, [])
  | c :: rest =>
    if isDigitCh c then
      let p := dropDigits rest
      (p.1 + 1, p.2)
    else (0, c :: rest)

/-- Parse the `YYYY-MM-DD` date prefix of an ISO-8601 string. -/
def parseDate8 (cs : List Char) : Option (Nat × Nat × Nat × List Char) :=
  match read4 cs with
  | Option.none => Option.none
  | some (y, r1) =>
    match expectCh '-' r1 with
    | Option.none => Option.none
    | some r2 =>
      match read2 r2 with
      | Option.none => Option.none
      | some (m, r3) =>
        match expectCh '-' r3 with
        | Option.none => Option.none
        | some r4 =>
          match read2 r4 with
          | Option.none => Option.none
          | some (d, r5) => some (y, m, d, r5)

/-- Parse an optional `:SS[.ffffff]` seconds part (fraction of 1–6
digits, its value discarded as `strftime` below never prints it). -/
def parseSecFrac : List Char → Option (Nat × List Char)
  | ':' :: r =>
    (match read2 r with
     | Option.none => Option.none
     | some (s, r2) =>
       match r2 with
       | '.' :: r3 =>
         let p := dropDigits r3
         if 1 ≤ p.1 && p.1 ≤ 6 then some (s, p.2) else Option.none
       | _ => some (s, r2))
  | cs => some (0, cs)

/-- Parse an optional `:MM[:SS[.ffffff]]` part after the hour. -/
def parseMinSec : List Char → Option (Nat × Nat × List Char)
  | ':' :: r =>
    (match read2 r with
     | Option.none => Option.none
     | some (mi, r2) =>
       match parseSecFrac r2 with
       | Option.none => Option.none
       | some (s, r3) => some (mi, s, r3))
  | cs => some (0, 0, cs)

/-- Parse a trailing `±HH:MM` UTC offset, in minutes east of UTC. -/
def parseOffHM (r : List Char) : Option Nat :=
  match read2 r with
  | Option.none => Option.none
  | some (h, r1) =>
    match expectCh ':' r1 with
    | Option.none => Option.none
    | some r2 =>
      match read2 r2 with
      | Option.none => Option.none
      | some (m, r3) => if r3 = [] then some (h * 60 + m) else Option.none

/-- Parse the end of the time string: empty (naive datetime) or a signed
offset. -/
def parseOff : List Char → Option (Option Int)
  | [] => some Option.none
  | '+' :: r =>
    (match parseOffHM r with
     | Option.none => Option.none
     | some n => some (some (n : Int)))
  | '-' :: r =>
    (match parseOffHM r with
     | Option.none => Option.none
     | some n => some (some (-(n : Int))))
  | _ => Option.none

/-- Parse the time-of-day and offset suffix. -/
def parseTimeOff (r1 : List Char) : Option (Nat × Nat × Nat × Option Int) :=
  match read2 r1 with
  | Option.none => Option.none
  | some (h, r2) =>
    match parseMinSec r2 with
    | Option.none => Option.none
    | some (mi, s, r3) =>
      match parseOff r3 with
      | Option.none => Option.none
      | some off => some (h, mi, s, off)

/-- Model of `datetime.fromisoformat`: `YYYY-MM-DD`, optionally followed
by a one-character separator (CPython accepts any single character
there), `HH[:MM[:SS[.ffffff]]]`, and an optional `±HH:MM` offset; field
ranges validated as by the `datetime` constructor. -/
def parseIso (cs : List Char) : Option PyDateTime :=
  match parseDate8 cs with
  | Option.none => Option.none
  | some (y, m, d, r) =>
    match r with
    | [] => mkDT y m d 0 0 0 Option.none
    | _ :: r1 =>
      match parseTimeOff r1 with
      | Option.none => Option.none
      | some (h, mi, s, off) => mkDT y m d h mi s off

/-- Calendar successor of a date. -/
def nextDate (y m d : Nat) : Nat × Nat × Nat :=
  if d < daysInMonth y m then (y, m, d + 1)
  else if m < 12 then (y, m + 1, 1)
  else (y + 1, 1, 1)

/-- Calendar predecessor of a date. -/
def prevDate (y m d : Nat) : Nat × Nat × Nat :=
  if 1 < d then (y, m, d - 1)
  else if 1 < m then (y, m - 1, daysInMonth y (m - 1))
  else (y - 1, 12, 31)

/-- Minutes-of-day after subtracting the UTC offset, before carrying
into the date. -/
def shiftMin (t : PyDateTime) : Int :=
  (t.hour : Int) * 60 + (t.minute : Int) - t.offMin.getD 0

/-- Date and normalized minutes-of-day after the offset subtraction: the
offset is at most ±23:59, so the date moves by at most one day. -/
def utcShift (t : PyDateTime) : (Nat × Nat × Nat) × Int :=
  if shiftMin t < 0 then (prevDate t.year t.month t.day, shiftMin t + 1440)
  else if shiftMin t < 1440 then ((t.year, t.month, t.day), shiftMin t)
  else (nextDate t.year t.month t.day, shiftMin t - 1440)

/-- Model of `dt.replace(tzinfo=utc)` for naive values followed by
`dt.astimezone(timezone.utc)`; `none` models the `OverflowError` raised
when the result leaves the supported year range 1–9999. -/
def toUtc (t : PyDateTime) : Option PyDateTime :=
  if 1 ≤ (utcShift t).1.1 && (utcShift t).1.1 ≤ 9999 then
    some ⟨(utcShift t).1.1, (utcShift t).1.2.1, (utcShift t).1.2.2,
          (utcShift t).2.toNat / 60, (utcShift t).2.toNat % 60,
          t.second, some 0⟩
  else Option.none

/-- Character of a decimal digit value. -/
def digitCh (n : Nat) : Char := Char.ofNat (48 + n)

/-- Two-digit zero-padded decimal rendering (`%m`, `%d`, `%H`, `%M`). -/
def pad2 (n : Nat) : List Char := [digitCh (n / 10), digitCh (n % 10)]

/-- Four-digit zero-padded decimal rendering (`%Y` for years 1–9999). -/
def pad4 (n : Nat) : List Char :=
  [digitCh (n / 1000), digitCh (n / 100 % 10), digitCh (n / 10 % 10),
   digitCh (n % 10)]

/-- Model of `dt.strftime("%Y-%m-%d %H:%M UTC")`. -/
def fmtUtc (t : PyDateTime) : List Char :=
  pad4 t.year ++ '-' :: pad2 t.month ++ '-' :: pad2 t.day ++
  ' ' :: pad2 t.hour ++ ':' :: pad2 t.minute ++ " UTC".toList

/-- The `iso.replace("Z", "+00:00")` preprocessing step. -/
def zrep (cs : List Char) : List Char :=
  replaceChar 'Z' "+00:00".toList cs

/-- `iso_to_local_hu` from scripts/build_weekly_post.py: empty string on
falsy input; otherwise parse after replacing `Z`, treat a missing zone
as UTC, convert to UTC and format — any exception yields the input
unchanged. -/
def iso_to_local_hu (iso : Option (List Char)) : List Char :=
  match iso with
  | Option.none => []
  | some s =>
    if s = [] then []
    else
      match parseIso (zrep s) with
      | Option.none => s
      | some dt =>
        match toUtc dt with
        | Option.none => s
        | some u => fmtUtc u

/-- Decidable check that a string has the shape `YYYY-MM-DD HH:MM UTC`. -/
def isUtcShape (s : List Char) : Bool :=
  match s with
  | [y1, y2, y3, y4, '-', m1, m2, '-', d1, d2, ' ',
     h1, h2, ':', n1, n2, ' ', 'U', 'T', 'C'] =>
    isDigitCh y1 && isDigitCh y2 && isDigitCh y3 && isDigitCh y4 &&
    isDigitCh m1 && isDigitCh m2 && isDigitCh d1 && isDigitCh d2 &&
    isDigitCh h1 && isDigitCh h2 && isDigitCh n1 && isDigitCh n2
  | _ => false

/-! ## Publisher entry guard (scripts/publish_post_light.py, `main`) -/

/-- Python whitespace for `str.strip()`. -/
def isSpaceCh (c : Char) : Bool :=
  c.toNat = 32 || c.toNat = 9 || c.toNat = 10 || c.toNat = 13 ||
  c.toNat = 11 || c.toNat = 12

/-- Python `s.strip()`: drop leading and trailing whitespace. -/
def pyStrip (s : List Char) : List Char :=
  ((s.dropWhile isSpaceCh).reverse.dropWhile isSpaceCh).reverse

/-- Side effects attempted by the publisher's `main`: opening a data
file for reading, and issuing a WordPress HTTP request (`true` when an
existing post id is set, i.e. the update endpoint). -/
inductive Effect where
  | fileRead (name : String)
  | httpPost (updateExisting : Bool)
deriving DecidableEq

/-- `main` from scripts/publish_post_light.py as an effect trace: read
`WP_ACCESS_TOKEN` / `WP_BLOG_ID` from the environment, strip them, and
return exit code 2 with no effects when either is missing or blank;
otherwise read the four data files and issue one WordPress request.
The effect list records the operations `main` attempts, in program
order. -/
def publisherMain (env : String → Option (List Char)) : Nat × List Effect :=
  if pyStrip ((env "WP_ACCESS_TOKEN").getD []) = [] ∨
     pyStrip ((env "WP_BLOG_ID").getD []) = [] then
    (2, [])
  else
    (0, [Effect.fileRead "summary.json", Effect.fileRead "weekly.json",
         Effect.fileRead "hotspots.json", Effect.fileRead "meta.json",
         Effect.httpPost (pyStrip ((env "WP_POST_ID").getD []) ≠ [])])

/-! ## Outbound request shapes (scripts/publish_post_light.py,
scripts/wp_oauth_exchange.py) -/

/-- The observable shape of an outbound HTTP request: the headers the
program sets and the timeout it passes (`none` would mean no timeout). -/
structure HttpRequest where
  headers : List (String × String)
  timeout : Option Nat
deriving DecidableEq

/-- Headers set by `wp_request` (scripts/publish_post_light.py lines
121–124). -/
def wpRequestHeaders (token : String) : List (String × String) :=
  [("Authorization", "Bearer " ++ token),
   ("User-Agent", "balkan-security-map/wordpress-poster")]

/-- The request issued by `wp_request`: custom headers, `timeout=45`. -/
def wp_request_req (token : String) : HttpRequest :=
  { headers := wpRequestHeaders token, timeout := some 45 }

/-- The request issued at module level by scripts/wp_oauth_exchange.py:
no headers argument (no program-set client string), `timeout=30`. -/
def oauth_exchange_req : HttpRequest :=
  { headers := [], timeout := some 30 }

/-- All outbound requests constructed by code under src/. -/
def outboundRequests (token : String) : List HttpRequest :=
  [wp_request_req token, oauth_exchange_req]

/-- Whether a request carries a program-set identifying client string
(a `User-Agent` header). -/
def hasClientString (r : HttpRequest) : Bool :=
  r.headers.any (fun p => p.1 = "User-Agent")

/-! ## JSON value model and downstream consumers -/

/-- JSON values as loaded by `json.load` (numbers restricted to the
integers actually used by the manifest/digest counts). -/
inductive JVal where
  | jnull
  | jbool (b : Bool)
  | jnum (n : Int)
  | jstr (s : List Char)
  | jarr (xs : List JVal)
  | jobj (fields : List (String × JVal))

/-- Python `d.get(k)` on a parsed JSON object (first binding wins, as
JSON object keys are unique); `none` on a missing key or a non-object. -/
def jGet : JVal → String → Option JVal
  | JVal.jobj fs, k => fs.lookup k
  | _, _ => Option.none

/-- Python truthiness of a JSON value. -/
def jTruthy : JVal → Bool
  | JVal.jnull => false
  | JVal.jbool b => b
  | JVal.jnum n => !(n = 0 : Bool)
  | JVal.jstr s => !(s.isEmpty)
  | JVal.jarr xs => !(xs.isEmpty)
  | JVal.jobj fs => !(fs.isEmpty)

/-- Python `a or b` on JSON values. -/
def pyOr (a b : JVal) : JVal := if jTruthy a then a else b

/-- `d.get(k)` where a missing key yields Python `None`. -/
def jGetD (v : JVal) (k : String) : JVal := (jGet v k).getD JVal.jnull

/-- A string-valued field, per the external contract (`generated_utc`
holds an ISO timestamp string). -/
def jStrOf : Option JVal → Option (List Char)
  | some (JVal.jstr s) => some s
  | _ => Option.none

/-- Line 48 of scripts/publish_post_light.py:
`gen = meta.get("generated_utc") or summary.get("generated_utc") or
weekly.get("generated_utc")`. -/
def buildHtmlGen (meta summary weekly : JVal) : JVal :=
  pyOr (jGetD meta "generated_utc")
    (pyOr (jGetD summary "generated_utc") (jGetD weekly "generated_utc"))

/-- Line 49 of scripts/publish_post_light.py:
`counts = (meta.get("counts") or {}) if isinstance(meta, dict) else {}`. -/
def buildHtmlCounts (meta : JVal) : JVal :=
  match meta with
  | JVal.jobj fs => pyOr (jGetD (JVal.jobj fs) "counts") (JVal.jobj [])
  | _ => JVal.jobj []

/-- `counts.get(k, 0)` as interpolated in lines 92–94 of
scripts/publish_post_light.py. -/
def countsGet (meta : JVal) (k : String) : JVal :=
  (jGet (buildHtmlCounts meta) k).getD (JVal.jnum 0)

/-- Line 87 of scripts/build_weekly_post.py:
`generated = iso_to_local_hu(weekly.get("generated_utc"))` — note the
argument is weekly.json, not the manifest. -/
def weeklyGenerated (w : JVal) : List Char :=
  iso_to_local_hu (jStrOf (jGet w "generated_utc"))

/-- Line 90 of scripts/build_weekly_post.py:
`counts = (weekly.get("counts") or {}) if isinstance(weekly.get("counts"),
dict) else {}`. -/
def weeklyCountsObj (w : JVal) : JVal :=
  match jGet w "counts" with
  | some (JVal.jobj fs) => pyOr (JVal.jobj fs) (JVal.jobj [])
  | _ => JVal.jobj []

/-- The three count values interpolated at line 123 of
scripts/build_weekly_post.py: `counts.get('GDELT',0)`, `USGS`, `GDACS`. -/
def weeklyCounts (w : JVal) : List JVal :=
  [(jGet (weeklyCountsObj w) "GDELT").getD (JVal.jnum 0),
   (jGet (weeklyCountsObj w) "USGS").getD (JVal.jnum 0),
   (jGet (weeklyCountsObj w) "GDACS").getD (JVal.jnum 0)]

/-- The manifest values the map renderer's `init` interpolates into its
meta line (docs JS, lines 234–238): `meta.generated_utc` and the four
fields of `meta.counts`. -/
def rendererMeta (meta : JVal) :
    Option JVal × Option JVal × Option JVal × Option JVal × Option JVal :=
  (jGet meta "generated_utc",
   (jGet meta "counts").bind (fun c => jGet c "hotspot_cells"),
   (jGet meta "counts").bind (fun c => jGet c "gdelt"),
   (jGet meta "counts").bind (fun c => jGet c "usgs"),
   (jGet meta "counts").bind (fun c => jGet c "gdacs"))

/-! ## Output writing (scripts/build_weekly_post.py, `main`) -/

/-- The tail of `main` in scripts/build_weekly_post.py as an `Except`
computation: load weekly.json, load meta.json, write the output HTML,
then return exit code 0.  No step is wrapped in a handler, so the first
error propagates. -/
def buildWeeklyMain (weeklyRes metaRes : Except String JVal)
    (writeRes : Except String Unit) : Except String Nat :=
  match weeklyRes with
  | Except.error e => Except.error e
  | Except.ok _ =>
    match metaRes with
    | Except.error e => Except.error e
    | Except.ok _ =>
      match writeRes with
      | Except.error e => Except.error e
      | Except.ok _ => Except.ok 0

/-! ## Ingestion pipeline, modelled from the spec (the pipeline script
is not under src/) -/

/-- Modelled from the spec: what the wire yields for one attempt — a
network/transport error or an HTTP status. -/
inductive Resp where
  | transportErr
  | status (code : Nat)
deriving DecidableEq

/-- Modelled from the spec: the retryable HTTP statuses
{429, 500, 502, 503, 504}. -/
def retryableStatus (c : Nat) : Bool :=
  c = 429 || c = 500 || c = 502 || c = 503 || c = 504

/-- Outcome of attempt `i` against a scripted upstream; attempts beyond
the script are transport errors. -/
def respAt (rs : List Resp) (i : Nat) : Resp :=
  (rs.get? i).getD Resp.transportErr

/-- Observable behaviour of one `fetch` call: the final result (`none`
is a terminal `FetchError`), the number of attempts made, and the
blocking delays slept before each retry. -/
structure FetchTrace where
  result : Option Nat
  attempts : Nat
  delays : List Nat
deriving DecidableEq, Repr

/-- Modelled from the spec: the Resilient Fetcher's retry loop —
`remaining` attempts left, current backoff `delay`; a status < 400
succeeds, a retryable status or transport error retries after sleeping
`delay` (doubling it) until attempts are exhausted, any other status
fails immediately. -/
def fetchAux (rs : List Resp) (i : Nat) : Nat → Nat → FetchTrace
  | 0, _ => ⟨Option.none, 0, []⟩
  | remaining + 1, delay =>
    match respAt rs i with
    | Resp.transportErr =>
      if remaining = 0 then ⟨Option.none, 1, []⟩
      else
        let t := fetchAux rs (i + 1) remaining (delay * 2)
        ⟨t.result, t.attempts + 1, delay :: t.delays⟩
    | Resp.status c =>
      if c < 400 then ⟨some c, 1, []⟩
      else if retryableStatus c then
        (if remaining = 0 then ⟨Option.none, 1, []⟩
         else
           let t := fetchAux rs (i + 1) remaining (delay * 2)
           ⟨t.result, t.attempts + 1, delay :: t.delays⟩)
      else ⟨Option.none, 1, []⟩

/-- Modelled from the spec: `fetch` — 3 attempts total, initial backoff
2 time-units. -/
def fetch (rs : List Resp) : FetchTrace := fetchAux rs 0 3 2

/-- The geometric backoff sequence `d, 2d, ...` of length `k`. -/
def delaysList (d : Nat) : Nat → List Nat
  | 0 => []
  | k + 1 => d :: delaysList (d * 2) k

/-- Modelled from the spec: the three upstream sources. -/
inductive Source where
  | SEISMIC
  | DISASTER_ALERT
  | NEWS_EVENT
deriving DecidableEq, Repr

/-- Modelled from the spec: the per-run bounding box (four scalars,
floating-point degrees idealized as rationals). -/
structure BoundingBox where
  lonMin : ℚ
  latMin : ℚ
  lonMax : ℚ
  latMax : ℚ
deriving DecidableEq

/-- Modelled from the spec: a point is in box iff
`lon ∈ [lonMin, lonMax]` and `lat ∈ [latMin, latMax]`, inclusive. -/
def inBox (bb : BoundingBox) (lon lat : ℚ) : Bool :=
  bb.lonMin ≤ lon && lon ≤ bb.lonMax && bb.latMin ≤ lat && lat ≤ bb.latMax

/-- Modelled from the spec: the unified NormalizedPoint output unit. -/
structure NormalizedPoint where
  longitude : ℚ
  latitude : ℚ
  source : Source
  eventType : List Char
  timestamp : Option Int
  title : Option (List Char)
  url : Option (List Char)
  place : Option (List Char)
  domain : Option (List Char)
  magnitude : Option ℚ
deriving DecidableEq

/-- A candidate feature of the seismic JSON feed before normalization. -/
structure SeismicRaw where
  coordinates : List ℚ
  timeMs : Option Int
  mag : Option ℚ
  place : Option (List Char)
  title : Option (List Char)
  url : Option (List Char)

/-- Modelled from the spec: the seismic adapter's per-feature step —
skip when fewer than 2 coordinate components, apply the bounding-box
filter before emission, keep magnitude/place/title/url as-is. -/
def seismicParse (bb : BoundingBox) (r : SeismicRaw) :
    Option NormalizedPoint :=
  match r.coordinates with
  | lon :: lat :: _ =>
    if inBox bb lon lat then
      some ⟨lon, lat, Source.SEISMIC, "earthquake".toList, r.timeMs,
            r.title, r.url, r.place, Option.none, r.mag⟩
    else Option.none
  | _ => Option.none

/-- Modelled from the spec: the seismic adapter over a fetched feature
list. -/
def seismicAdapter (bb : BoundingBox) (rs : List SeismicRaw) :
    List NormalizedPoint :=
  rs.filterMap (seismicParse bb)

/-- A disaster-alert `<item>` after tolerant tag extraction. -/
structure DisasterItem where
  title : Option (List Char)
  link : Option (List Char)
  pubDate : Option (List Char)
  point : Option (List Char)

/-- Modelled from the spec: the disaster-alert adapter's per-item step,
parameterized by the permissive date parser (`parseDate`, seconds since
epoch) and the `"lat lon"` point-field parser (`parsePoint`, latitude
first): skip on missing/unparsable date or point, drop items older than
`cutoffDays` measured from `now`, then apply the bounding-box filter. -/
def disasterParse (parseDate : List Char → Option Int)
    (parsePoint : List Char → Option (ℚ × ℚ)) (bb : BoundingBox)
    (now : Int) (cutoffDays : Nat) (it : DisasterItem) :
    Option NormalizedPoint :=
  match it.pubDate with
  | Option.none => Option.none
  | some ds =>
    match it.point with
    | Option.none => Option.none
    | some ps =>
      match parseDate ds with
      | Option.none => Option.none
      | some t =>
        if (cutoffDays : Int) * 86400 < now - t then Option.none
        else
          match parsePoint ps with
          | Option.none => Option.none
          | some (la, lo) =>
            if inBox bb lo la then
              some ⟨lo, la, Source.DISASTER_ALERT,
                    "disaster_alert".toList, some t, it.title, it.link,
                    Option.none, Option.none, Option.none⟩
            else Option.none

/-- Modelled from the spec: the disaster-alert adapter over the
extracted items. -/
def disasterAdapter (parseDate : List Char → Option Int)
    (parsePoint : List Char → Option (ℚ × ℚ)) (bb : BoundingBox)
    (now : Int) (cutoffDays : Nat) (items : List DisasterItem) :
    List NormalizedPoint :=
  items.filterMap (disasterParse parseDate parsePoint bb now cutoffDays)

/-- A news-event article after JSON decoding. -/
structure NewsArticle where
  title : Option (List Char)
  url : Option (List Char)
  domain : Option (List Char)
  seendate : Option (List Char)
  geoLat : Option ℚ
  geoLon : Option ℚ

/-- Modelled from the spec: the news-event adapter's per-article step —
require an explicit latitude/longitude pair (no geocoding fallback),
apply the bounding-box filter; an unparsable seen-date leaves the
timestamp absent but still emits the record. -/
def newsParse (parseDate : List Char → Option Int) (bb : BoundingBox)
    (a : NewsArticle) : Option NormalizedPoint :=
  match a.geoLat, a.geoLon with
  | some la, some lo =>
    if inBox bb lo la then
      some ⟨lo, la, Source.NEWS_EVENT, "news_event".toList,
            (match a.seendate with
             | some s => parseDate s
             | Option.none => Option.none),
            a.title, a.url, Option.none, a.domain, Option.none⟩
    else Option.none
  | _, _ => Option.none

/-- Modelled from the spec: dedup by `url` keeping the first-seen
occurrence per unique non-empty URL; records without a URL (absent or
empty, i.e. falsy in Python) are all retained. `seen` accumulates the
URLs already emitted. -/
def dedupByUrl : List NormalizedPoint → List (List Char) →
    List NormalizedPoint
  | [], _ => []
  | p :: rest, seen =>
    match p.url with
    | Option.none => p :: dedupByUrl rest seen
    | some u =>
      if u = [] then p :: dedupByUrl rest seen
      else if u ∈ seen then dedupByUrl rest seen
      else p :: dedupByUrl rest (u :: seen)

/-- Modelled from the spec: the news-event adapter — parse, filter,
then deduplicate by URL. -/
def newsAdapter (parseDate : List Char → Option Int) (bb : BoundingBox)
    (arts : List NewsArticle) : List NormalizedPoint :=
  dedupByUrl (arts.filterMap (newsParse parseDate bb)) []

/-- Whether a record has a non-empty URL. -/
def hasUrl (p : NormalizedPoint) : Bool :=
  match p.url with
  | some u => !(u.isEmpty)
  | Option.none => false

/-- Modelled from the spec: the RunManifest — generation timestamp,
per-source counts, and the bounding box used. -/
structure RunManifest where
  generatedAt : List Char
  countSeismic : Nat
  countDisaster : Nat
  countNews : Nat
  box : BoundingBox
deriving DecidableEq

/-- One run's persisted outputs: the three feature collections and the
manifest. -/
structure RunOutput where
  seismic : List NormalizedPoint
  disaster : List NormalizedPoint
  news : List NormalizedPoint
  manifest : RunManifest
deriving DecidableEq

/-- Modelled from the spec: the Orchestrator — run the three adapters
over the decoded upstream responses, compute per-source counts, and
stamp the manifest with the generation time `genAt`. -/
def runPipeline (parseDate : List Char → Option Int)
    (parsePoint : List Char → Option (ℚ × ℚ)) (bb : BoundingBox)
    (now : Int) (cutoffDays : Nat) (seis : List SeismicRaw)
    (dis : List DisasterItem) (arts : List NewsArticle)
    (genAt : List Char) : RunOutput :=
  ⟨seismicAdapter bb seis,
   disasterAdapter parseDate parsePoint bb now cutoffDays dis,
   newsAdapter parseDate bb arts,
   ⟨genAt,
    (seismicAdapter bb seis).length,
    (disasterAdapter parseDate parsePoint bb now cutoffDays dis).length,
    (newsAdapter parseDate bb arts).length,
    bb⟩⟩

/-- Modelled from the spec: the Collection Writer — write the manifest
and each source's collection in sequence; a serialization/write error
is fatal and propagates (no handler). -/
def writeRun (wManifest wSeis wDis wNews : Except String Unit) :
    Except String Unit :=
  match wManifest with
  | Except.error e => Except.error e
  | Except.ok _ =>
    match wSeis with
    | Except.error e => Except.error e
    | Except.ok _ =>
      match wDis with
      | Except.error e => Except.error e
      | Except.ok _ =>
        match wNews with
        | Except.error e => Except.error e
        | Except.ok _ => Except.ok ()

/-! ## Theorems for claim C8 -/

theorem replaceChar_not_mem_self {c : Char} {r s : List Char}
    (hr : c ∉ r) : c ∉ replaceChar c r s := by
  induction s with
  | nil => simp [replaceChar]
  | cons a t ih =>
    by_cases h : a = c
    · simp only [replaceChar, if_pos h, List.mem_append]
      exact fun hmem => hmem.elim hr ih
    · simp only [replaceChar, if_neg h, List.mem_cons]
      exact fun hmem => hmem.elim (fun he => h he.symm) ih

theorem replaceChar_not_mem {x c : Char} {r s : List Char}
    (hr : x ∉ r) (hs : x ∉ s) : x ∉ replaceChar c r s := by
  induction s with
  | nil => simp [replaceChar]
  | cons a t ih =>
    have hxa : x ≠ a := fun h => hs (h ▸ List.mem_cons_self a t)
    have hxt : x ∉ t := fun h => hs (List.mem_cons_of_mem a h)
    by_cases h : a = c
    · simp only [replaceChar, if_pos h, List.mem_append]
      exact fun hmem => hmem.elim hr (ih hxt)
    · simp only [replaceChar, if_neg h, List.mem_cons]
      exact fun hmem => hmem.elim (fun he => hxa he) (ih hxt)

theorem esc_not_mem_lt (v : PyVal) : '<' ∉ esc v := by
  unfold esc
  apply replaceChar_not_mem (by decide)
  apply replaceChar_not_mem (by decide)
  apply replaceChar_not_mem (by decide)
  exact replaceChar_not_mem_self (by decide)

theorem esc_not_mem_gt (v : PyVal) : '>' ∉ esc v := by
  unfold esc
  apply replaceChar_not_mem (by decide)
  apply replaceChar_not_mem (by decide)
  exact replaceChar_not_mem_self (by decide)

theorem esc_not_mem_quot (v : PyVal) : '"' ∉ esc v := by
  unfold esc
  apply replaceChar_not_mem (by decide)
  exact replaceChar_not_mem_self (by decide)

theorem esc_not_mem_apos (v : PyVal) : '\'' ∉ esc v := by
  unfold esc
  exact replaceChar_not_mem_self (by decide)

/-- C8: for every modelled input value (None and non-string values
included), `esc` returns a string containing none of the characters
`<`, `>`, `"`, `'`, and `esc None` is the empty string.  Totality of the
Lean function models that the Python function does not raise. -/
theorem C8_esc_safe :
    (∀ v : PyVal,
      '<' ∉ esc v ∧ '>' ∉ esc v ∧ '"' ∉ esc v ∧ '\'' ∉ esc v) ∧
    esc PyVal.none = [] :=
  ⟨fun v => ⟨esc_not_mem_lt v, esc_not_mem_gt v, esc_not_mem_quot v,
    esc_not_mem_apos v⟩, rfl⟩

/-! ## Theorems for claim C9 -/

theorem daysInMonth_ge (y m : Nat) : 28 ≤ daysInMonth y m := by
  unfold daysInMonth
  split
  · split <;> omega
  · split <;> omega

theorem daysInMonth_le (y m : Nat) : daysInMonth y m ≤ 31 := by
  unfold daysInMonth
  split
  · split <;> omega
  · split <;> omega

theorem daysInMonth_dec (y : Nat) : daysInMonth y 12 = 31 := rfl

theorem daysInMonth_jan (y : Nat) : daysInMonth y 1 = 31 := rfl

theorem validDate_iff (y m d : Nat) :
    validDate y m d = true ↔
      1 ≤ m ∧ m ≤ 12 ∧ 1 ≤ d ∧ d ≤ daysInMonth y m := by
  simp [validDate, Bool.and_eq_true, decide_eq_true_eq, and_assoc]

theorem nextDate_valid {y m d : Nat} (h : validDate y m d = true) :
    validDate (nextDate y m d).1 (nextDate y m d).2.1
      (nextDate y m d).2.2 = true := by
  rw [validDate_iff] at h
  unfold nextDate
  by_cases h1 : d < daysInMonth y m
  · rw [if_pos h1]
    show validDate y m (d + 1) = true
    rw [validDate_iff]; omega
  · rw [if_neg h1]
    by_cases h2 : m < 12
    · rw [if_pos h2]
      show validDate y (m + 1) 1 = true
      rw [validDate_iff]
      have := daysInMonth_ge y (m + 1)
      omega
    · rw [if_neg h2]
      show validDate (y + 1) 1 1 = true
      rw [validDate_iff, daysInMonth_jan]
      omega

theorem prevDate_valid {y m d : Nat} (h : validDate y m d = true) :
    validDate (prevDate y m d).1 (prevDate y m d).2.1
      (prevDate y m d).2.2 = true := by
  rw [validDate_iff] at h
  unfold prevDate
  by_cases h1 : 1 < d
  · rw [if_pos h1]
    show validDate y m (d - 1) = true
    rw [validDate_iff]; omega
  · rw [if_neg h1]
    by_cases h2 : 1 < m
    · rw [if_pos h2]
      show validDate y (m - 1) (daysInMonth y (m - 1)) = true
      rw [validDate_iff]
      have := daysInMonth_ge y (m - 1)
      omega
    · rw [if_neg h2]
      show validDate (y - 1) 12 31 = true
      rw [validDate_iff, daysInMonth_dec]
      omega

theorem validDT_iff (t : PyDateTime) :
    validDT t = true ↔
      1 ≤ t.year ∧ t.year ≤ 9999 ∧
      validDate t.year t.month t.day = true ∧
      t.hour ≤ 23 ∧ t.minute ≤ 59 ∧ t.second ≤ 59 ∧
      offOK t.offMin = true := by
  simp [validDT, Bool.and_eq_true, decide_eq_true_eq, and_assoc]

theorem mkDT_valid {y m d h mi s : Nat} {off : Option Int}
    {dt : PyDateTime} (hp : mkDT y m d h mi s off = some dt) :
    validDT dt = true := by
  unfold mkDT at hp
  split at hp
  · cases hp; assumption
  · exact Option.noConfusion hp

theorem parseIso_valid {cs : List Char} {dt : PyDateTime}
    (h : parseIso cs = some dt) : validDT dt = true := by
  unfold parseIso at h
  cases hd : parseDate8 cs with
  | none => rw [hd] at h; exact Option.noConfusion h
  | some q =>
    obtain ⟨y, m, d, r⟩ := q
    simp only [hd] at h
    cases r with
    | nil => exact mkDT_valid h
    | cons a r1 =>
      cases ht : parseTimeOff r1 with
      | none =>
        simp only [ht] at h
        exact Option.noConfusion h
      | some q2 =>
        obtain ⟨hh, mi, s, off⟩ := q2
        simp only [ht] at h
        exact mkDT_valid h

theorem offMin_bounds {t : PyDateTime} (h : offOK t.offMin = true) :
    -1439 ≤ t.offMin.getD 0 ∧ t.offMin.getD 0 ≤ 1439 := by
  cases ho : t.offMin with
  | none => simp
  | some o =>
    rw [ho] at h
    simp only [offOK, Bool.and_eq_true, decide_eq_true_eq] at h
    simpa using h

theorem shiftMin_bounds {t : PyDateTime} (h : validDT t = true) :
    -1439 ≤ shiftMin t ∧ shiftMin t ≤ 2879 := by
  rw [validDT_iff] at h
  obtain ⟨-, -, -, hh, hm, -, ho⟩ := h
  have hb := offMin_bounds ho
  unfold shiftMin
  omega

theorem utcShift_valid {t : PyDateTime} (h : validDT t = true) :
    (0 ≤ (utcShift t).2 ∧ (utcShift t).2 ≤ 1439) ∧
    validDate (utcShift t).1.1 (utcShift t).1.2.1
      (utcShift t).1.2.2 = true := by
  have hs := shiftMin_bounds h
  have hd : validDate t.year t.month t.day = true :=
    ((validDT_iff t).mp h).2.2.1
  unfold utcShift
  split
  · exact ⟨by omega, prevDate_valid hd⟩
  · split
    · exact ⟨by omega, hd⟩
    · exact ⟨by omega, nextDate_valid hd⟩

theorem toUtc_valid {t u : PyDateTime} (h : validDT t = true)
    (hu : toUtc t = some u) : validDT u = true := by
  have hv := utcShift_valid h
  have hsec : t.second ≤ 59 := ((validDT_iff t).mp h).2.2.2.2.2.1
  unfold toUtc at hu
  split at hu
  · rename_i hy
    simp only [Bool.and_eq_true, decide_eq_true_eq] at hy
    cases hu
    rw [validDT_iff]
    refine ⟨hy.1, hy.2, hv.2, ?_, ?_, hsec, rfl⟩
    · show (utcShift t).2.toNat / 60 ≤ 23
      have := hv.1
      omega
    · show (utcShift t).2.toNat % 60 ≤ 59
      have := hv.1
      omega
  · exact Option.noConfusion hu

theorem isDigitCh_digitCh {n : Nat} (h : n ≤ 9) :
    isDigitCh (digitCh n) = true := by
  interval_cases n <;> decide

theorem fmtUtc_shape {u : PyDateTime} (h : validDT u = true) :
    isUtcShape (fmtUtc u) = true := by
  rw [validDT_iff] at h
  obtain ⟨-, hy, hvd, hh, hm, -, -⟩ := h
  rw [validDate_iff] at hvd
  have hd31 : u.day ≤ 31 :=
    le_trans hvd.2.2.2 (daysInMonth_le u.year u.month)
  have hm12 : u.month ≤ 12 := hvd.2.1
  have e : isUtcShape (fmtUtc u) =
      (isDigitCh (digitCh (u.year / 1000)) &&
       isDigitCh (digitCh (u.year / 100 % 10)) &&
       isDigitCh (digitCh (u.year / 10 % 10)) &&
       isDigitCh (digitCh (u.year % 10)) &&
       isDigitCh (digitCh (u.month / 10)) &&
       isDigitCh (digitCh (u.month % 10)) &&
       isDigitCh (digitCh (u.day / 10)) &&
       isDigitCh (digitCh (u.day % 10)) &&
       isDigitCh (digitCh (u.hour / 10)) &&
       isDigitCh (digitCh (u.hour % 10)) &&
       isDigitCh (digitCh (u.minute / 10)) &&
       isDigitCh (digitCh (u.minute % 10))) := rfl
  rw [e]
  repeat rw [isDigitCh_digitCh (by omega)]
  rfl

/-- C9 (amended): `iso_to_local_hu` is total; it returns the empty
string on `None` or empty input; when the input parses as an ISO-8601
instant and its UTC conversion stays inside the supported year range it
returns that instant formatted `YYYY-MM-DD HH:MM UTC`; when the UTC
conversion overflows the year range, or the input does not parse, the
input is returned unchanged. -/
theorem C9_iso_to_local_hu_spec (iso : Option (List Char)) :
    (iso = Option.none → iso_to_local_hu iso = []) ∧
    (∀ cs, iso = some cs →
      (cs = [] → iso_to_local_hu iso = []) ∧
      (cs ≠ [] →
        (parseIso (zrep cs) = Option.none → iso_to_local_hu iso = cs) ∧
        (∀ dt, parseIso (zrep cs) = some dt →
          (toUtc dt = Option.none → iso_to_local_hu iso = cs) ∧
          (∀ u, toUtc dt = some u →
            iso_to_local_hu iso = fmtUtc u ∧
            isUtcShape (fmtUtc u) = true)))) := by
  constructor
  · rintro rfl; rfl
  · rintro cs rfl
    refine ⟨fun hcs => by simp [iso_to_local_hu, hcs], fun hne => ?_⟩
    refine ⟨fun hp => by simp [iso_to_local_hu, hne, hp], fun dt hp => ?_⟩
    refine ⟨fun hu => by simp [iso_to_local_hu, hne, hp, hu], fun u hu => ?_⟩
    exact ⟨by simp [iso_to_local_hu, hne, hp, hu],
      fmtUtc_shape (toUtc_valid (parseIso_valid hp) hu)⟩

/-- C9 (counterexample to the claim as stated): the input
`0001-01-01T00:00:00+01:00` parses as an ISO-8601 instant, yet
`iso_to_local_hu` returns it unchanged — the UTC conversion raises
`OverflowError` (year 0), the bare `except` catches it, and the result
is not of the shape `YYYY-MM-DD HH:MM UTC` that the claim promises for
parseable inputs. -/
theorem C9_counterexample :
    parseIso (zrep "0001-01-01T00:00:00+01:00".toList) =
      some ⟨1, 1, 1, 0, 0, 0, some 60⟩ ∧
    iso_to_local_hu (some "0001-01-01T00:00:00+01:00".toList) =
      "0001-01-01T00:00:00+01:00".toList ∧
    isUtcShape "0001-01-01T00:00:00+01:00".toList = false := by
  refine ⟨by decide, by decide, by decide⟩

/-- C9 witness: the amended theorem applied at the concrete input
`2024-03-05T10:20:30Z`. -/
theorem C9_witness :
    iso_to_local_hu (some "2024-03-05T10:20:30Z".toList) =
      "2024-03-05 10:20 UTC".toList := by
  have h := ((((C9_iso_to_local_hu_spec
      (some "2024-03-05T10:20:30Z".toList)).2
      "2024-03-05T10:20:30Z".toList rfl).2 (by decide)).2
      ⟨2024, 3, 5, 10, 20, 30, some 0⟩ (by decide)).2
      ⟨2024, 3, 5, 10, 20, 30, some 0⟩ (by decide)
  exact h.1.trans (by decide)

/-! ## Theorems for claim C10 -/

theorem pyStrip_nil_of_all_space {s : List Char}
    (h : ∀ c ∈ s, isSpaceCh c = true) : pyStrip s = [] := by
  unfold pyStrip
  rw [List.dropWhile_eq_nil_iff.mpr h]
  rfl

/-- C10: when `WP_ACCESS_TOKEN` or `WP_BLOG_ID` is unset or blank
(whitespace-only; an unset variable reads as the empty string), the
publisher's `main` returns exit code 2 with an empty effect trace — no
data file is read and no HTTP request is issued. -/
theorem C10_publisher_guard (env : String → Option (List Char))
    (h : (∀ c ∈ (env "WP_ACCESS_TOKEN").getD [], isSpaceCh c = true) ∨
         (∀ c ∈ (env "WP_BLOG_ID").getD [], isSpaceCh c = true)) :
    publisherMain env = (2, []) := by
  unfold publisherMain
  rcases h with h | h
  · rw [if_pos (Or.inl (pyStrip_nil_of_all_space h))]
  · rw [if_pos (Or.inr (pyStrip_nil_of_all_space h))]

/-- C10 witness: a blank token with a non-blank blog id. -/
theorem C10_witness :
    publisherMain (fun n => if n = "WP_ACCESS_TOKEN" then
      some "   ".toList else some "x".toList) = (2, []) :=
  C10_publisher_guard _ (Or.inl (by decide))

/-! ## Theorems for claim C6 -/

/-- C6 (counterexample to the claim as stated): it is not the case that
every outbound request carries a program-set client string and a
30-time-unit timeout — the OAuth exchange request sets no `User-Agent`
header at all, and the publisher's WordPress requests use `timeout=45`,
not 30. -/
theorem C6_counterexample :
    ¬ ∀ r ∈ outboundRequests "token",
        hasClientString r = true ∧ r.timeout = some 30 := by
  decide

/-- C6 (amended): every outbound request passes an explicit bounded
timeout (45 for the publisher's WordPress requests, 30 for the OAuth
exchange); the WordPress requests carry the fixed identifying client
string, while the OAuth exchange request carries none. -/
theorem C6_outbound_requests :
    (∀ tok : String, ∀ r ∈ outboundRequests tok,
        ∃ n, r.timeout = some n ∧ 0 < n ∧ n ≤ 45) ∧
    (∀ tok : String, hasClientString (wp_request_req tok) = true ∧
        (wp_request_req tok).timeout = some 45) ∧
    hasClientString oauth_exchange_req = false ∧
    oauth_exchange_req.timeout = some 30 := by
  refine ⟨?_, fun tok => ⟨rfl, rfl⟩, rfl, rfl⟩
  intro tok r hr
  simp only [outboundRequests, List.mem_cons, List.mem_singleton,
    List.not_mem_nil, or_false] at hr
  rcases hr with rfl | rfl
  · exact ⟨45, rfl, by omega, by omega⟩
  · exact ⟨30, rfl, by omega, by omega⟩

/-- C6 witness: the amended theorem at the publisher's request. -/
theorem C6_witness :
    ∃ n, (wp_request_req "t").timeout = some n ∧ 0 < n ∧ n ≤ 45 :=
  C6_outbound_requests.1 "t" (wp_request_req "t")
    (by simp [outboundRequests])

/-! ## Theorems for claim C7 -/

/-- C7: a failed output write propagates as an error and terminates the
run — in the weekly post builder a write error surfaces as the result
(and `main` can only return 0 when the write succeeded), and in the
pipeline writer a manifest or collection write error surfaces as the
result; no handler converts either into an ok/partial result. -/
theorem C7_write_errors_fatal :
    (∀ (wk mt : JVal) (e : String),
        buildWeeklyMain (Except.ok wk) (Except.ok mt) (Except.error e) =
          Except.error e) ∧
    (∀ (wk mt : JVal) (wr : Except String Unit) (n : Nat),
        buildWeeklyMain (Except.ok wk) (Except.ok mt) wr = Except.ok n →
          wr = Except.ok () ∧ n = 0) ∧
    (∀ (e : String) (w2 w3 w4 : Except String Unit),
        writeRun (Except.error e) w2 w3 w4 = Except.error e) ∧
    (∀ e : String,
        writeRun (Except.ok ()) (Except.ok ()) (Except.ok ())
          (Except.error e) = Except.error e) := by
  refine ⟨fun wk mt e => rfl, ?_, fun e w2 w3 w4 => rfl, fun e => rfl⟩
  intro wk mt wr n h
  cases wr with
  | error e => exact Except.noConfusion h
  | ok u =>
    cases u
    cases h
    exact ⟨rfl, rfl⟩

/-- C7 witness: a failing HTML write at concrete inputs. -/
theorem C7_witness :
    buildWeeklyMain (Except.ok (JVal.jobj [])) (Except.ok (JVal.jobj []))
      (Except.error "disk full") = Except.error "disk full" :=
  C7_write_errors_fatal.1 (JVal.jobj []) (JVal.jobj []) "disk full"

/-! ## Theorems for claim C5 -/

theorem buildHtmlCounts_eq (m : JVal) :
    buildHtmlCounts m =
      pyOr ((jGet m "counts").getD JVal.jnull) (JVal.jobj []) := by
  cases m <;> rfl

theorem buildHtmlCounts_congr {m m' : JVal}
    (h : jGet m "counts" = jGet m' "counts") :
    buildHtmlCounts m = buildHtmlCounts m' := by
  rw [buildHtmlCounts_eq, buildHtmlCounts_eq, h]

/-- C5 (amended): each consumer keys off the field names
`generated_utc` and `counts`, but not exclusively off the manifest: the
renderer's meta line depends only on the manifest's `generated_utc` and
`counts`; the publisher's generation time depends only on the
`generated_utc` fields of manifest, summary and weekly — taking the
manifest's whenever it is set — and its counts only on the manifest's
`counts` mapping; the weekly post builder takes its generation time and
counts from weekly.json's `generated_utc` and `counts` fields. -/
theorem C5_consumer_reads :
    (∀ m m', jGet m "generated_utc" = jGet m' "generated_utc" →
        jGet m "counts" = jGet m' "counts" →
        rendererMeta m = rendererMeta m') ∧
    (∀ m s w m' s' w',
        jGet m "generated_utc" = jGet m' "generated_utc" →
        jGet s "generated_utc" = jGet s' "generated_utc" →
        jGet w "generated_utc" = jGet w' "generated_utc" →
        buildHtmlGen m s w = buildHtmlGen m' s' w') ∧
    (∀ m s w, jTruthy (jGetD m "generated_utc") = true →
        buildHtmlGen m s w = jGetD m "generated_utc") ∧
    (∀ m m' k, jGet m "counts" = jGet m' "counts" →
        countsGet m k = countsGet m' k) ∧
    (∀ w w', jGet w "generated_utc" = jGet w' "generated_utc" →
        weeklyGenerated w = weeklyGenerated w') ∧
    (∀ w w', jGet w "counts" = jGet w' "counts" →
        weeklyCounts w = weeklyCounts w') := by
  refine ⟨?_, ?_, ?_, ?_, ?_, ?_⟩
  · intro m m' h1 h2
    unfold rendererMeta
    rw [h1, h2]
  · intro m s w m' s' w' h1 h2 h3
    unfold buildHtmlGen jGetD
    rw [h1, h2, h3]
  · intro m s w h
    unfold buildHtmlGen pyOr
    rw [if_pos h]
  · intro m m' k h
    unfold countsGet
    rw [buildHtmlCounts_congr h]
  · intro w w' h
    unfold weeklyGenerated
    rw [h]
  · intro w w' h
    unfold weeklyCounts weeklyCountsObj
    rw [h]

/-- C5 (counterexample to the claim as stated): with the manifest fixed
(and lacking `generated_utc`), the publisher's rendered generation time
tracks summary.json instead — so the generation time is not read
exclusively from the manifest. -/
theorem C5_counterexample :
    buildHtmlGen (JVal.jobj [])
      (JVal.jobj [("generated_utc",
        JVal.jstr "2024-01-01T00:00:00Z".toList)]) (JVal.jobj []) =
      JVal.jstr "2024-01-01T00:00:00Z".toList ∧
    buildHtmlGen (JVal.jobj [])
      (JVal.jobj [("generated_utc",
        JVal.jstr "2025-06-30T12:00:00Z".toList)]) (JVal.jobj []) =
      JVal.jstr "2025-06-30T12:00:00Z".toList ∧
    JVal.jstr "2024-01-01T00:00:00Z".toList ≠
      JVal.jstr "2025-06-30T12:00:00Z".toList := by
  refine ⟨rfl, rfl, ?_⟩
  intro h
  injection h with h'
  exact absurd h' (by decide)

/-- C5 witness: the amended theorem's manifest-priority clause at a
concrete manifest. -/
theorem C5_witness :
    buildHtmlGen (JVal.jobj [("generated_utc", JVal.jstr "x".toList)])
      (JVal.jobj []) (JVal.jobj []) =
      jGetD (JVal.jobj [("generated_utc", JVal.jstr "x".toList)])
        "generated_utc" :=
  C5_consumer_reads.2.2.1
    (JVal.jobj [("generated_utc", JVal.jstr "x".toList)])
    (JVal.jobj []) (JVal.jobj []) (by decide)

/-! ## Theorems for claim C1 -/

theorem fetchAux_attempts (rs : List Resp) :
    ∀ (rem i d : Nat), 1 ≤ rem →
      1 ≤ (fetchAux rs i rem d).attempts ∧
      (fetchAux rs i rem d).attempts ≤ rem := by
  intro rem
  induction rem with
  | zero => intro i d h; omega
  | succ n ih =>
    intro i d _
    rcases hri : respAt rs i with _ | c
    · by_cases hn : n = 0
      · simp [fetchAux, hri, hn]
      · have H := ih (i + 1) (d * 2) (by omega)
        simp [fetchAux, hri, hn]
        omega
    · by_cases hc : c < 400
      · simp [fetchAux, hri, hc]
      · by_cases hr : retryableStatus c = true
        · by_cases hn : n = 0
          · simp [fetchAux, hri, hc, hr, hn]
          · have H := ih (i + 1) (d * 2) (by omega)
            simp [fetchAux, hri, hc, hr, hn]
            omega
        · simp [fetchAux, hri, hc, hr]

theorem fetchAux_delays (rs : List Resp) :
    ∀ (rem i d : Nat),
      (fetchAux rs i rem d).delays =
        delaysList d ((fetchAux rs i rem d).attempts - 1) := by
  intro rem
  induction rem with
  | zero => intro i d; rfl
  | succ n ih =>
    intro i d
    rcases hri : respAt rs i with _ | c
    · by_cases hn : n = 0
      · simp [fetchAux, hri, hn, delaysList]
      · have h1 := (fetchAux_attempts rs n (i + 1) (d * 2) (by omega)).1
        obtain ⟨k, hk⟩ : ∃ k, (fetchAux rs (i + 1) n (d * 2)).attempts =
          k + 1 := ⟨(fetchAux rs (i + 1) n (d * 2)).attempts - 1, by omega⟩
        have hIH := ih (i + 1) (d * 2)
        simp [fetchAux, hri, hn, hIH, hk, delaysList]
    · by_cases hc : c < 400
      · simp [fetchAux, hri, hc, delaysList]
      · by_cases hr : retryableStatus c = true
        · by_cases hn : n = 0
          · simp [fetchAux, hri, hc, hr, hn, delaysList]
          · have h1 := (fetchAux_attempts rs n (i + 1) (d * 2)
              (by omega)).1
            obtain ⟨k, hk⟩ : ∃ k,
              (fetchAux rs (i + 1) n (d * 2)).attempts = k + 1 :=
              ⟨(fetchAux rs (i + 1) n (d * 2)).attempts - 1, by omega⟩
            have hIH := ih (i + 1) (d * 2)
            simp [fetchAux, hri, hc, hr, hn, hIH, hk, delaysList]
        · simp [fetchAux, hri, hc, hr, delaysList]

/-- C1: the Resilient Fetcher makes at most 3 attempts with backoff
delays forming a prefix of `[2, 4]`; a retryable status or transport
error is retried; for `[503, 503, 200]` it succeeds on the third
attempt after exactly 2 retries with delays 2 and 4; for
`[503, 503, 503]` it fails terminally after exactly 3 attempts. -/
theorem C1_resilient_fetcher :
    fetch [Resp.status 503, Resp.status 503, Resp.status 200] =
      ⟨some 200, 3, [2, 4]⟩ ∧
    fetch [Resp.status 503, Resp.status 503, Resp.status 503] =
      ⟨Option.none, 3, [2, 4]⟩ ∧
    (∀ c, retryableStatus c = true →
        fetch [Resp.status c, Resp.status 200] = ⟨some 200, 2, [2]⟩) ∧
    fetch [Resp.transportErr, Resp.status 200] = ⟨some 200, 2, [2]⟩ ∧
    (∀ rs, 1 ≤ (fetch rs).attempts ∧ (fetch rs).attempts ≤ 3 ∧
        (fetch rs).delays = [2, 4].take ((fetch rs).attempts - 1)) := by
  refine ⟨by decide, by decide, ?_, by decide, ?_⟩
  · intro c hc
    simp only [retryableStatus, Bool.or_eq_true, decide_eq_true_eq] at hc
    rcases hc with (((rfl | rfl) | rfl) | rfl) | rfl <;> decide
  · intro rs
    have ha := fetchAux_attempts rs 3 0 2 (by omega)
    have hd := fetchAux_delays rs 3 0 2
    refine ⟨ha.1, ha.2, ?_⟩
    show (fetchAux rs 0 3 2).delays =
      [2, 4].take ((fetchAux rs 0 3 2).attempts - 1)
    rw [hd]
    have h3 : (fetchAux rs 0 3 2).attempts - 1 = 0 ∨
        (fetchAux rs 0 3 2).attempts - 1 = 1 ∨
        (fetchAux rs 0 3 2).attempts - 1 = 2 := by omega
    rcases h3 with h | h | h <;> rw [h] <;> rfl

/-- C1 witness: a retryable first status at a concrete code. -/
theorem C1_witness :
    fetch [Resp.status 429, Resp.status 200] = ⟨some 200, 2, [2]⟩ :=
  C1_resilient_fetcher.2.2.1 429 (by decide)

/-! ## Theorems for claim C2 -/

theorem seismicParse_inBox {bb : BoundingBox} {r : SeismicRaw}
    {p : NormalizedPoint} (h : seismicParse bb r = some p) :
    inBox bb p.longitude p.latitude = true := by
  unfold seismicParse at h
  split at h
  · split at h
    · cases h; assumption
    · exact Option.noConfusion h
  · exact Option.noConfusion h

theorem disasterParse_inBox {pd : List Char → Option Int}
    {pp : List Char → Option (ℚ × ℚ)} {bb : BoundingBox} {now : Int}
    {cut : Nat} {it : DisasterItem} {p : NormalizedPoint}
    (h : disasterParse pd pp bb now cut it = some p) :
    inBox bb p.longitude p.latitude = true := by
  unfold disasterParse at h
  cases hpd : it.pubDate with
  | none => rw [hpd] at h; exact Option.noConfusion h
  | some ds =>
    simp only [hpd] at h
    cases hpt : it.point with
    | none => rw [hpt] at h; exact Option.noConfusion h
    | some ps =>
      simp only [hpt] at h
      cases ht : pd ds with
      | none => rw [ht] at h; exact Option.noConfusion h
      | some t =>
        simp only [ht] at h
        by_cases hcut : (cut : Int) * 86400 < now - t
        · rw [if_pos hcut] at h
          exact Option.noConfusion h
        · rw [if_neg hcut] at h
          cases hpp : pp ps with
          | none => rw [hpp] at h; exact Option.noConfusion h
          | some q =>
            obtain ⟨la, lo⟩ := q
            simp only [hpp] at h
            by_cases hib : inBox bb lo la = true
            · rw [if_pos hib] at h
              cases h
              exact hib
            · rw [if_neg hib] at h
              exact Option.noConfusion h

theorem newsParse_inBox {pd : List Char → Option Int}
    {bb : BoundingBox} {a : NewsArticle} {p : NormalizedPoint}
    (h : newsParse pd bb a = some p) :
    inBox bb p.longitude p.latitude = true := by
  unfold newsParse at h
  cases hla : a.geoLat with
  | none => rw [hla] at h; exact Option.noConfusion h
  | some la =>
    simp only [hla] at h
    cases hlo : a.geoLon with
    | none => rw [hlo] at h; exact Option.noConfusion h
    | some lo =>
      simp only [hlo] at h
      by_cases hib : inBox bb lo la = true
      · rw [if_pos hib] at h
        cases h
        exact hib
      · rw [if_neg hib] at h
        exact Option.noConfusion h

theorem dedup_subset :
    ∀ (l : List NormalizedPoint) (seen : List (List Char))
      (p : NormalizedPoint), p ∈ dedupByUrl l seen → p ∈ l := by
  intro l
  induction l with
  | nil => intro seen p h; exact absurd h (by simp [dedupByUrl])
  | cons q rest ih =>
    intro seen p h
    unfold dedupByUrl at h
    cases hq : q.url with
    | none =>
      simp only [hq] at h
      rcases List.mem_cons.mp h with rfl | h2
      · exact List.mem_cons_self _ _
      · exact List.mem_cons_of_mem _ (ih seen p h2)
    | some v =>
      simp only [hq] at h
      by_cases hv : v = []
      · rw [if_pos hv] at h
        rcases List.mem_cons.mp h with rfl | h2
        · exact List.mem_cons_self _ _
        · exact List.mem_cons_of_mem _ (ih seen p h2)
      · rw [if_neg hv] at h
        by_cases hs : v ∈ seen
        · rw [if_pos hs] at h
          exact List.mem_cons_of_mem _ (ih seen p h)
        · rw [if_neg hs] at h
          rcases List.mem_cons.mp h with rfl | h2
          · exact List.mem_cons_self _ _
          · exact List.mem_cons_of_mem _ (ih (v :: seen) p h2)

/-- C2: every feature emitted by any of the three adapters satisfies
the bounding box, inclusively on all four edges — a point outside the
box is discarded before reaching the writer. -/
theorem C2_bounding_box :
    (∀ bb rs p, p ∈ seismicAdapter bb rs →
        inBox bb p.longitude p.latitude = true) ∧
    (∀ pd pp bb now cut items p,
        p ∈ disasterAdapter pd pp bb now cut items →
        inBox bb p.longitude p.latitude = true) ∧
    (∀ pd bb arts p, p ∈ newsAdapter pd bb arts →
        inBox bb p.longitude p.latitude = true) := by
  refine ⟨?_, ?_, ?_⟩
  · intro bb rs p h
    obtain ⟨r, -, hr⟩ := List.mem_filterMap.mp h
    exact seismicParse_inBox hr
  · intro pd pp bb now cut items p h
    obtain ⟨it, -, hit⟩ := List.mem_filterMap.mp h
    exact disasterParse_inBox hit
  · intro pd bb arts p h
    obtain ⟨a, -, ha⟩ := List.mem_filterMap.mp (dedup_subset _ _ _ h)
    exact newsParse_inBox ha

/-- C2 witness: the seismic adapter at a concrete in-box feature. -/
theorem C2_witness : inBox ⟨19, 39, 24, 46⟩ 21 42 = true :=
  C2_bounding_box.1 ⟨19, 39, 24, 46⟩
    [⟨[21, 42], Option.none, Option.none, Option.none, Option.none,
      Option.none⟩]
    ⟨21, 42, Source.SEISMIC, "earthquake".toList, Option.none,
     Option.none, Option.none, Option.none, Option.none, Option.none⟩
    (by decide)

/-! ## Theorems for claim C3 -/

theorem dedup_no_seen {u : List Char} (hu : u ≠ []) :
    ∀ (l : List NormalizedPoint) (seen : List (List Char)), u ∈ seen →
      ∀ p ∈ dedupByUrl l seen, ¬(p.url = some u) := by
  intro l
  induction l with
  | nil => intro seen hus p hp; exact absurd hp (by simp [dedupByUrl])
  | cons q rest ih =>
    intro seen hus p hp
    unfold dedupByUrl at hp
    cases hq : q.url with
    | none =>
      simp only [hq] at hp
      rcases List.mem_cons.mp hp with rfl | h2
      · rw [hq]; exact fun he => Option.noConfusion he
      · exact ih seen hus p h2
    | some v =>
      simp only [hq] at hp
      by_cases hv : v = []
      · rw [if_pos hv] at hp
        rcases List.mem_cons.mp hp with rfl | h2
        · rw [hq]
          intro he
          injection he with he2
          exact hu (hv ▸ he2).symm
        · exact ih seen hus p h2
      · rw [if_neg hv] at hp
        by_cases hs : v ∈ seen
        · rw [if_pos hs] at hp
          exact ih seen hus p hp
        · rw [if_neg hs] at hp
          rcases List.mem_cons.mp hp with rfl | h2
          · rw [hq]
            intro he
            injection he with he2
            exact hs (he2 ▸ hus)
          · exact ih (v :: seen) (List.mem_cons_of_mem _ hus) p h2

theorem dedup_pairwise :
    ∀ (l : List NormalizedPoint) (seen : List (List Char)),
      (dedupByUrl l seen).Pairwise
        (fun a b => ∀ u : List Char, u ≠ [] →
          a.url = some u → ¬(b.url = some u)) := by
  intro l
  induction l with
  | nil => intro seen; exact List.Pairwise.nil
  | cons q rest ih =>
    intro seen
    unfold dedupByUrl
    cases hq : q.url with
    | none =>
      refine List.Pairwise.cons ?_ (ih seen)
      intro b hb u hu hqu
      rw [hq] at hqu
      exact Option.noConfusion hqu
    | some v =>
      dsimp only
      by_cases hv : v = []
      · rw [if_pos hv]
        refine List.Pairwise.cons ?_ (ih seen)
        intro b hb u hu hqu
        rw [hq] at hqu
        injection hqu with he
        exact fun _ => hu (hv ▸ he).symm
      · rw [if_neg hv]
        by_cases hs : v ∈ seen
        · rw [if_pos hs]; exact ih seen
        · rw [if_neg hs]
          refine List.Pairwise.cons ?_ (ih (v :: seen))
          intro b hb u hu hqu
          rw [hq] at hqu
          injection hqu with he
          subst he
          exact dedup_no_seen hu rest (v :: seen)
            (List.mem_cons_self v seen) b hb

theorem dedup_filter_noUrl :
    ∀ (l : List NormalizedPoint) (seen : List (List Char)),
      (dedupByUrl l seen).filter (fun p => !(hasUrl p)) =
        l.filter (fun p => !(hasUrl p)) := by
  intro l
  induction l with
  | nil => intro seen; rfl
  | cons q rest ih =>
    intro seen
    unfold dedupByUrl
    cases hq : q.url with
    | none =>
      dsimp only
      have hk : (!(hasUrl q)) = true := by simp [hasUrl, hq]
      rw [List.filter_cons, List.filter_cons, if_pos hk, if_pos hk,
        ih seen]
    | some v =>
      dsimp only
      by_cases hv : v = []
      · rw [if_pos hv]
        have hk : (!(hasUrl q)) = true := by simp [hasUrl, hq, hv]
        rw [List.filter_cons, List.filter_cons, if_pos hk, if_pos hk,
          ih seen]
      · rw [if_neg hv]
        have hk : ¬ ((!(hasUrl q)) = true) := by
          simp [hasUrl, hq, List.isEmpty_iff, hv]
        by_cases hs : v ∈ seen
        · rw [if_pos hs, ih seen, List.filter_cons, if_neg hk]
        · rw [if_neg hs, List.filter_cons, List.filter_cons,
            if_neg hk, if_neg hk, ih (v :: seen)]

theorem dedup_filter_url {u : List Char} (hu : u ≠ []) :
    ∀ (l : List NormalizedPoint) (seen : List (List Char)), u ∉ seen →
      (dedupByUrl l seen).filter (fun p => decide (p.url = some u)) =
        (l.filter (fun p => decide (p.url = some u))).take 1 := by
  intro l
  induction l with
  | nil => intro seen hns; rfl
  | cons q rest ih =>
    intro seen hns
    unfold dedupByUrl
    cases hq : q.url with
    | none =>
      dsimp only
      have hk : ¬ (decide (q.url = some u) = true) := by simp [hq]
      rw [List.filter_cons, List.filter_cons, if_neg hk, if_neg hk,
        ih seen hns]
    | some v =>
      dsimp only
      by_cases hv : v = []
      · rw [if_pos hv]
        have hk : ¬ (decide (q.url = some u) = true) := by
          simp only [decide_eq_true_eq, hq]
          intro he
          injection he with he2
          exact hu (hv ▸ he2).symm
        rw [List.filter_cons, List.filter_cons, if_neg hk, if_neg hk,
          ih seen hns]
      · rw [if_neg hv]
        by_cases hs : v ∈ seen
        · have hvne : v ≠ u := fun he => hns (he ▸ hs)
          have hk : ¬ (decide (q.url = some u) = true) := by
            simp [hq, hvne]
          rw [if_pos hs, ih seen hns, List.filter_cons, if_neg hk]
        · rw [if_neg hs]
          by_cases hvu : v = u
          · subst hvu
            have hk : decide (q.url = some v) = true := by simp [hq]
            have hnil : (dedupByUrl rest (v :: seen)).filter
                (fun p => decide (p.url = some v)) = [] := by
              rw [List.filter_eq_nil_iff]
              intro p hp
              simp only [decide_eq_true_eq]
              exact dedup_no_seen hu rest (v :: seen)
                (List.mem_cons_self v seen) p hp
            rw [List.filter_cons, List.filter_cons, if_pos hk,
              if_pos hk, hnil]
            rfl
          · have hk : ¬ (decide (q.url = some u) = true) := by
              simp [hq, hvu]
            have hns2 : u ∉ v :: seen := by
              intro hin
              rcases List.mem_cons.mp hin with he | hin2
              · exact hvu he.symm
              · exact hns hin2
            rw [List.filter_cons, List.filter_cons, if_neg hk,
              if_neg hk, ih (v :: seen) hns2]

/-- C3: in the news-event adapter's output no two emitted features
share a non-empty url; every record lacking a (non-empty) url survives
deduplication unchanged; and for each non-empty url the output keeps
exactly the first-seen record carrying it. -/
theorem C3_news_dedup :
    (∀ pd bb arts, (newsAdapter pd bb arts).Pairwise
        (fun a b => ∀ u : List Char, u ≠ [] →
          a.url = some u → ¬(b.url = some u))) ∧
    (∀ pd bb arts,
        (newsAdapter pd bb arts).filter (fun p => !(hasUrl p)) =
          (arts.filterMap (newsParse pd bb)).filter
            (fun p => !(hasUrl p))) ∧
    (∀ pd bb arts (u : List Char), u ≠ [] →
        (newsAdapter pd bb arts).filter
            (fun p => decide (p.url = some u)) =
          ((arts.filterMap (newsParse pd bb)).filter
            (fun p => decide (p.url = some u))).take 1) := by
  refine ⟨?_, ?_, ?_⟩
  · intro pd bb arts
    exact dedup_pairwise _ []
  · intro pd bb arts
    exact dedup_filter_noUrl _ []
  · intro pd bb arts u hu
    exact dedup_filter_url hu _ [] (by simp)

/-- C3 witness: two articles sharing a url, first-seen kept. -/
theorem C3_witness :
    (newsAdapter (fun _ => Option.none) ⟨19, 39, 24, 46⟩
        [⟨Option.none, some "u".toList, Option.none, Option.none,
          some 40, some 20⟩,
         ⟨Option.none, some "u".toList, Option.none, Option.none,
          some 41, some 21⟩]).filter
        (fun p => decide (p.url = some "u".toList)) =
      (([⟨Option.none, some "u".toList, Option.none, Option.none,
          some 40, some 20⟩,
         ⟨Option.none, some "u".toList, Option.none, Option.none,
          some 41, some 21⟩].filterMap
          (newsParse (fun _ => Option.none) ⟨19, 39, 24, 46⟩)).filter
        (fun p => decide (p.url = some "u".toList))).take 1 :=
  C3_news_dedup.2.2 (fun _ => Option.none) ⟨19, 39, 24, 46⟩
    [⟨Option.none, some "u".toList, Option.none, Option.none,
      some 40, some 20⟩,
     ⟨Option.none, some "u".toList, Option.none, Option.none,
      some 41, some 21⟩] "u".toList (by decide)

/-! ## Theorems for claim C4 -/

/-- C4: the generation timestamp parameter influences only the
manifest's `generatedAt` field — two runs over identical upstream
responses (and the same reference time) produce identical feature
collections and a manifest identical up to `generatedAt`, hence
identical counts. -/
theorem C4_run_idempotent (pd : List Char → Option Int)
    (pp : List Char → Option (ℚ × ℚ)) (bb : BoundingBox) (now : Int)
    (cut : Nat) (seis : List SeismicRaw) (dis : List DisasterItem)
    (arts : List NewsArticle) (g1 g2 : List Char) :
    (runPipeline pd pp bb now cut seis dis arts g1).seismic =
      (runPipeline pd pp bb now cut seis dis arts g2).seismic ∧
    (runPipeline pd pp bb now cut seis dis arts g1).disaster =
      (runPipeline pd pp bb now cut seis dis arts g2).disaster ∧
    (runPipeline pd pp bb now cut seis dis arts g1).news =
      (runPipeline pd pp bb now cut seis dis arts g2).news ∧
    { (runPipeline pd pp bb now cut seis dis arts g1).manifest with
        generatedAt := g2 } =
      (runPipeline pd pp bb now cut seis dis arts g2).manifest :=
  ⟨rfl, rfl, rfl, rfl⟩

/-- C8 witness: the safety theorem at a concrete string containing a
markup character. -/
theorem C8_witness : '<' ∉ esc (PyVal.str "a<b".toList) :=
  (C8_esc_safe.1 (PyVal.str "a<b".toList)).1
